import Mathlib

/-!
Shallow embedding of `src/scrape.py` (above-grad-job-scanner).

The pure text heuristics (`contains_any`, `is_uk`, `extract_years`,
`bucket_job`) are translated directly.  Python regular-expression search
is embedded as an explicit leftmost-position scanner: for the three
concrete patterns of `extract_years` greedy maximal-munch matching is
equivalent to Python `re.search` (no successful backtracking exists,
since giving back digits always exposes a digit where the pattern next
requires a separator, whitespace, `+` or `y`).  Python floats produced by
`float(...)` on the matched decimal literals are modelled as rationals.
-/

namespace Scrape

/-- Python `str.lower()` (ASCII case mapping, as used by the keyword
heuristics): lower-case every character. -/
def pyLower (s : String) : String := String.mk (s.data.map Char.toLower)

/-- Predicate `charsPre k t`: holds when the char list `k` is a prefix of `t`. -/
def charsPre : List Char → List Char → Bool
  | [], _ => true
  | _ :: _, [] => false
  | a :: as, b :: bs => a == b && charsPre as bs

/-- Predicate `charsIn k t`: `k` occurs as a contiguous substring of `t`
(Python `k in t`). -/
def charsIn (k : List Char) : List Char → Bool
  | [] => k.isEmpty
  | c :: t => charsPre k (c :: t) || charsIn k t

/-- Python substring test `k in t`. -/
def pyIn (k t : String) : Bool := charsIn k.data t.data

/-- List `UK_HINTS` from `scrape.py`. -/
def UK_HINTS : List String :=
  ["gb", "uk", "united kingdom",
   "london", "manchester", "birmingham", "leeds", "bristol",
   "glasgow", "edinburgh", "belfast", "cambridge", "oxford"]

/-- List `HIGH_TITLE_KEYWORDS` from `scrape.py`. -/
def HIGH_TITLE_KEYWORDS : List String :=
  ["graduate", "junior", "trainee", "assistant", "coordinator",
   "administrator", "admin", "apprentice", "intern", "placement"]

/-- List `LESS_TITLE_KEYWORDS` from `scrape.py`. -/
def LESS_TITLE_KEYWORDS : List String :=
  ["analyst", "officer", "executive", "associate"]

/-- List `SENIOR_EXCLUDE_KEYWORDS` from `scrape.py`. -/
def SENIOR_EXCLUDE_KEYWORDS : List String :=
  ["senior", "sr", "lead", "manager", "principal", "head", "director", "vp",
   "vice president", "chief", "cmo", "cto", "cfo",
   "product owner", "product manager", "programme manager", "program manager",
   "consultant", "specialist", "partner", "architect",
   "staff", "ii", "iii", "iv"]

/-- Function `contains_any(text, keywords)`: lower-case the text, then test each
keyword for substring membership. -/
def contains_any (text : String) (keywords : List String) : Bool :=
  keywords.any (fun k => pyIn k (pyLower text))

/-- Python `str.strip()`: drop leading and trailing whitespace. -/
def pyStrip (s : String) : String :=
  String.mk (((s.data.dropWhile Char.isWhitespace).reverse.dropWhile Char.isWhitespace).reverse)

/-- Function `is_uk(location)`: strip and lower-case the location string, then test
it against the fixed UK hint substrings. -/
def is_uk (location : String) : Bool :=
  UK_HINTS.any (fun h => pyIn h (pyLower (pyStrip location)))

/-- Characters matched by the regex class `\s` (ASCII portion). -/
def pyWsChar (c : Char) : Bool :=
  c == ' ' || c == '\t' || c == '\n' || c == '\r' || c == '\x0b' || c == '\x0c'

/-- Greedy `\s*`: drop leading whitespace. -/
def skipWs (cs : List Char) : List Char := cs.dropWhile pyWsChar

/-- Greedy `\d+` / `\d*`: split off the maximal leading run of digits. -/
def munchDigits : List Char → List Char × List Char
  | [] => ([], [])
  | c :: cs =>
    if c.isDigit then
      let p := munchDigits cs
      (c :: p.1, p.2)
    else ([], c :: cs)

/-- Numeric value of a digit run. -/
def digitsVal (ds : List Char) : Nat :=
  ds.foldl (fun a c => 10 * a + (c.toNat - 48)) 0

/-- Match `\d+(?:\.\d+)?` at the head of the input and return its value
(the Python `float(...)` of the matched literal) with the rest. -/
def parseNum (cs : List Char) : Option (ℚ × List Char) :=
  let p := munchDigits cs
  if p.1.isEmpty then none
  else
    match p.2 with
    | '.' :: r2 =>
      let q := munchDigits r2
      if q.1.isEmpty then some ((digitsVal p.1 : ℚ), p.2)
      else
        some (mkRat (digitsVal p.1 * 10 ^ q.1.length + digitsVal q.1) (10 ^ q.1.length), q.2)
    | _ => some ((digitsVal p.1 : ℚ), p.2)

/-- Match the separator alternation `(?:-|–|to)` at the head. -/
def matchSep : List Char → Option (List Char)
  | '-' :: r => some r
  | '–' :: r => some r
  | 't' :: 'o' :: r => some r
  | _ => none

/-- Match the trailing literal `years?` (only `year` is required). -/
def matchYearsLit (cs : List Char) : Bool := charsPre ['y', 'e', 'a', 'r'] cs

/-- Pattern 1 of `extract_years`,
`(\d+(?:\.\d+)?)\s*(?:-|–|to)\s*(\d+(?:\.\d+)?)\s*years?`, anchored at
the head of the input. -/
def p1At (cs : List Char) : Option (ℚ × ℚ) :=
  match parseNum cs with
  | none => none
  | some (n1, r1) =>
    match matchSep (skipWs r1) with
    | none => none
    | some r2 =>
      match parseNum (skipWs r2) with
      | none => none
      | some (n2, r3) => if matchYearsLit (skipWs r3) then some (n1, n2) else none

/-- Pattern 2 of `extract_years`, `up to\s*(\d+(?:\.\d+)?)\s*years?`,
anchored at the head of the input. -/
def p2At (cs : List Char) : Option ℚ :=
  if charsPre ['u', 'p', ' ', 't', 'o'] cs then
    match parseNum (skipWs (cs.drop 5)) with
    | none => none
    | some (n, r) => if matchYearsLit (skipWs r) then some n else none
  else none

/-- Pattern 3 of `extract_years`, `(\d+(?:\.\d+)?)\s*\+\s*years?`,
anchored at the head of the input. -/
def p3At (cs : List Char) : Option ℚ :=
  match parseNum cs with
  | none => none
  | some (n, r) =>
    match skipWs r with
    | '+' :: r2 => if matchYearsLit (skipWs r2) then some n else none
    | _ => none

/-- Model of `re.search`: try an anchored matcher at every position, leftmost
match wins. -/
def searchFrom {α : Type} (f : List Char → Option α) : List Char → Option α
  | [] => none
  | c :: cs =>
    match f (c :: cs) with
    | some v => some v
    | none => searchFrom f cs

/-- Function `extract_years(text)`: lower-case the text, try the three patterns in
order, first match wins; returns `(min_years, max_years)`. -/
def extract_years (text : String) : Option ℚ × Option ℚ :=
  let t := (pyLower text).data
  match searchFrom p1At t with
  | some (a, b) => (some a, some b)
  | none =>
    match searchFrom p2At t with
    | some b => (some 0, some b)
    | none =>
      match searchFrom p3At t with
      | some a => (some a, none)
      | none => (none, none)

/-- The title-signal tail of `bucket_job` (rules 4–6). -/
def bucketByTitle (title_l : String) : String × String :=
  if contains_any title_l HIGH_TITLE_KEYWORDS then
    ("HIGH", "Strong junior keyword in title")
  else if contains_any title_l LESS_TITLE_KEYWORDS then
    ("LESS", "Stealth junior keyword in title")
  else
    ("LESS", "No strong signal (kept for review)")

/-- Function `bucket_job(title, location, description_text)` from `scrape.py`. -/
def bucket_job (title location description_text : String) : String × String :=
  let title_l := pyLower title
  if contains_any title_l SENIOR_EXCLUDE_KEYWORDS then
    ("EXCLUDE", "Senior keyword in title")
  else if !is_uk location then
    ("IGNORE", "Not UK location")
  else
    match (extract_years description_text).1 with
    | some y_min =>
      if (5 : ℚ) ≤ y_min then ("EXCLUDE", "5+ years mentioned")
      else bucketByTitle title_l
    | none => bucketByTitle title_l

/-- A normalized posting, as produced by all three adapters (`scrape.py`
always fills every key, defaulting to the empty string). -/
structure Job where
  title : String
  location : String
  department : String
  employment_type : String
  url : String
  description : String
deriving DecidableEq

/-- An output row: employer name, posting fields, and classification. -/
structure Row where
  employer : String
  title : String
  location : String
  department : String
  employment_type : String
  url : String
  bucket : String
  reason : String
deriving DecidableEq

/-- The `location` value of a Greenhouse job JSON object: absent/null,
a nested object carrying an optional `name`, or a flat string. -/
inductive GLoc where
  | missing
  | dictLoc (name : Option String)
  | strLoc (s : String)
deriving DecidableEq

/-- Normalization of the location value, from `scrape_greenhouse`:
a nested object yields its `name` (default empty), a flat string is kept,
and an absent or null value yields the empty string. -/
def ghLocString : GLoc → String
  | .missing => ""
  | .dictLoc n => n.getD ""
  | .strLoc s => s

/-- A job entry of a Greenhouse response (`None` models an absent key). -/
structure GJob where
  title : Option String
  location : GLoc
  absolute_url : Option String
  content : Option String
deriving DecidableEq

/-- A department entry of a Greenhouse response. -/
structure GDept where
  name : Option String
  jobs : List GJob
deriving DecidableEq

/-- A Greenhouse board response: optional flat `jobs` key and optional
grouped `departments` key. -/
structure GPayload where
  jobs : Option (List GJob)
  departments : Option (List GDept)
deriving DecidableEq

/-- The per-job normalization of `scrape_greenhouse`, given the
department name to attach. -/
def ghNorm (dept : String) (j : GJob) : Job :=
  { title := j.title.getD ""
    location := ghLocString j.location
    department := dept
    employment_type := ""
    url := j.absolute_url.getD ""
    description := j.content.getD "" }

/-- Function `scrape_greenhouse` applied to an already-fetched payload: the flat
`jobs` list (department `""`) when the key is present, then every
department's nested jobs tagged with the department name. -/
def scrape_greenhouse (p : GPayload) : List Job :=
  (match p.jobs with
   | some js => js.map (ghNorm "")
   | none => []) ++
  (match p.departments with
   | some ds => ds.flatMap (fun d => d.jobs.map (ghNorm (d.name.getD "")))
   | none => [])

/-- An item of a Workday search response page (`None` = absent key). -/
structure WItem where
  title : Option String
  jobPostingTitle : Option String
  externalPath : Option String
  externalUrl : Option String
  locationsText : Option String
  location : Option String
  primaryLocation : Option String
deriving DecidableEq

/-- One page of a Workday search response. -/
structure WPayload where
  jobPostings : Option (List WItem)
  items : Option (List WItem)
  total : Option Int
  totalCount : Option Int
deriving DecidableEq

/-- Python `a or b` on an optional string, where `None` and `""` are
falsy. -/
def pyOrS (a : Option String) (b : String) : String :=
  match a with
  | some s => if s = "" then b else s
  | none => b

/-- Python `a or b` on an optional list, where `None` and `[]` are
falsy. -/
def pyOrL (a : Option (List WItem)) (b : List WItem) : List WItem :=
  match a with
  | some l => if l.isEmpty then b else l
  | none => b

/-- Items of a page: `payload.get("jobPostings") or payload.get("items") or []`. -/
def itemsOf (p : WPayload) : List WItem :=
  pyOrL p.jobPostings (pyOrL p.items [])

/-- Reported total: `payload.get("total") or payload.get("totalCount")`
(Python `or`: both `None` and `0` are falsy). -/
def totalOf (p : WPayload) : Option Int :=
  match p.total with
  | some t => if t = 0 then p.totalCount else some t
  | none => p.totalCount

/-- Stop test `total is not None and offset >= int(total)`. -/
def totalReached (total : Option Int) (offset : Nat) : Bool :=
  match total with
  | some t => (offset : Int) ≥ t
  | none => false

/-- The per-item normalization of `scrape_workday`: pick the title and
URL-ish field by `or`-chains, root-relative paths are joined with the
host, and the location tries three keys. -/
def normWItem (host : String) (it : WItem) : Job :=
  let title := pyOrS it.title (pyOrS it.jobPostingTitle "")
  let external_path := pyOrS it.externalPath (pyOrS it.externalUrl "")
  let url :=
    if external_path ≠ "" ∧ external_path.startsWith "/" then
      "https://" ++ host ++ external_path
    else external_path
  { title := title
    location := pyOrS it.locationsText (pyOrS it.location (pyOrS it.primaryLocation ""))
    department := ""
    employment_type := ""
    url := url
    description := "" }

/-- The pagination loop of `scrape_workday`, fuel-indexed so that
termination is a theorem rather than an assumption.  `fetch offset` is
the parsed JSON response of the POST with that offset; the result pairs
the collected jobs with the number of requests issued, and `none` means
the fuel ran out before the loop stopped. -/
def workdayLoop (fetch : Nat → WPayload) (host : String) :
    Nat → Nat → Option (List Job × Nat)
  | 0, _ => none
  | fuel + 1, offset =>
    let payload := fetch offset
    let items := itemsOf payload
    if items.isEmpty then some ([], 1)
    else
      let newJobs := items.map (normWItem host)
      let offset2 := offset + 20
      if totalReached (totalOf payload) offset2 then some (newJobs, 1)
      else if 500 < offset2 then some (newJobs, 1)
      else
        match workdayLoop fetch host fuel offset2 with
        | none => none
        | some (js, c) => some (newJobs ++ js, c + 1)

/-- The outcome of one adapter invocation for one employer: the list of
normalized postings it returned, or the message of the exception it
raised (HTTP error, malformed JSON, ...). -/
structure Employer where
  name : String
  etype : String
  fetch : Except String (List Job)

/-- Employer types the orchestrator dispatches on. -/
def supportedType (t : String) : Bool :=
  t == "pinpoint" || t == "greenhouse" || t == "workday"

/-- The per-posting classify-and-filter step of `main`: rows bucketed
EXCLUDE or IGNORE are dropped, the rest become output rows. -/
def keptRows (empName : String) (jobs : List Job) : List Row :=
  jobs.filterMap (fun j =>
    let p := bucket_job j.title j.location j.description
    if p.1 = "EXCLUDE" ∨ p.1 = "IGNORE" then none
    else
      some
        { employer := empName
          title := j.title
          location := j.location
          department := j.department
          employment_type := j.employment_type
          url := j.url
          bucket := p.1
          reason := p.2 })

/-- The rows one employer contributes to the global `rows` list. -/
def rowsOfEmp (e : Employer) : List Row :=
  if supportedType e.etype then
    match e.fetch with
    | .ok jobs => keptRows e.name jobs
    | .error _ => []
  else []

/-- One iteration of the employer loop of `main`, carrying the global
`rows` list and the log lines printed so far. -/
def stepRun (acc : List Row × List String) (e : Employer) : List Row × List String :=
  if supportedType e.etype then
    match e.fetch with
    | .error msg => (acc.1, acc.2 ++ [e.name ++ ": ERROR: " ++ msg])
    | .ok jobs =>
      let rows2 := acc.1 ++ keptRows e.name jobs
      (rows2,
       acc.2 ++ [e.name ++ ": kept " ++
         toString (rows2.filter (fun r => r.employer == e.name)).length ++ " jobs"])
  else (acc.1, acc.2 ++ ["Skipping " ++ e.name ++ ": unsupported type '" ++ e.etype ++ "'"])

/-- The employer loop of `main`. -/
def mainRun (es : List Employer) : List Row × List String :=
  es.foldl stepRun ([], [])

/-- The collected output rows after all employers are processed. -/
def mainRows (es : List Employer) : List Row := (mainRun es).1

/-- The log lines printed during the run. -/
def mainLogs (es : List Employer) : List String := (mainRun es).2

/-- Sort key order of the final `sort_values(["bucket", "employer",
"title"], ascending=[True, True, True])`. -/
def rowLe (a b : Row) : Prop :=
  toLex (a.bucket, toLex (a.employer, a.title)) ≤ toLex (b.bucket, toLex (b.employer, b.title))

instance : DecidableRel rowLe := fun a b =>
  inferInstanceAs (Decidable
    (toLex (a.bucket, toLex (a.employer, a.title)) ≤
      toLex (b.bucket, toLex (b.employer, b.title))))

instance : IsTotal Row rowLe := ⟨fun _ _ => le_total _ _⟩

instance : IsTrans Row rowLe := ⟨fun _ _ _ h1 h2 => le_trans h1 h2⟩

/-- The header of `jobs_output.csv` (the fixed column schema). -/
def OUTPUT_COLUMNS : List String :=
  ["employer", "title", "location", "department", "employment_type", "url", "bucket", "reason"]

/-- The serialized output: header plus the collected rows sorted by
(bucket, employer, title) ascending.  When no rows survived, the file is
still written, with the header alone. -/
def writeOutput (es : List Employer) : List String × List Row :=
  (OUTPUT_COLUMNS, List.insertionSort rowLe (mainRows es))

theorem charToNat_ofNat_of_valid {n : Nat} (h : n.isValidChar) :
    (Char.ofNat n).toNat = n := by
  rw [Char.ofNat, dif_pos h]
  simp [Char.ofNatAux, Char.toNat, UInt32.toNat]

theorem charToLower_idem (c : Char) : c.toLower.toLower = c.toLower := by
  by_cases h : c.toNat ≥ 65 ∧ c.toNat ≤ 90
  · have hval : (c.toNat + 32).isValidChar := Or.inl (by omega)
    have h1 : c.toLower = Char.ofNat (c.toNat + 32) := by
      simp only [Char.toLower]
      rw [if_pos h]
    have h2 : (Char.ofNat (c.toNat + 32)).toNat = c.toNat + 32 :=
      charToNat_ofNat_of_valid hval
    rw [h1]
    simp only [Char.toLower]
    rw [h2, if_neg (by omega)]
  · have h1 : c.toLower = c := by
      simp only [Char.toLower]
      rw [if_neg h]
    rw [h1, h1]

theorem pyLower_idem (s : String) : pyLower (pyLower s) = pyLower s := by
  show String.mk (List.map Char.toLower (List.map Char.toLower s.data)) =
    String.mk (List.map Char.toLower s.data)
  rw [List.map_map]
  exact congrArg String.mk (List.map_congr_left (fun c _ => charToLower_idem c))

theorem contains_any_pyLower (t : String) (kws : List String) :
    contains_any (pyLower t) kws = contains_any t kws := by
  unfold contains_any
  rw [pyLower_idem]

/-- C1: for every title string containing any senior-exclusion keyword
(case-insensitively, at any position — i.e. `contains_any` accepts it
against `SENIOR_EXCLUDE_KEYWORDS`), `bucket_job` returns the pair
`("EXCLUDE", "Senior keyword in title")`, for every location and every
description. -/
theorem C1_senior_title_excluded (title location description : String)
    (h : contains_any title SENIOR_EXCLUDE_KEYWORDS = true) :
    bucket_job title location description = ("EXCLUDE", "Senior keyword in title") := by
  simp [bucket_job, contains_any_pyLower, h]

theorem C1_witness :
    contains_any "Senior Engineer" SENIOR_EXCLUDE_KEYWORDS = true ∧
    bucket_job "Senior Engineer" "Paris, France" "any description" =
      ("EXCLUDE", "Senior keyword in title") :=
  ⟨by decide,
   C1_senior_title_excluded "Senior Engineer" "Paris, France" "any description" (by decide)⟩

/-- C5: `extract_years` tries its three patterns in order, first match
winning, and on the concrete inputs of the specification it returns
(3, 5), (0, 2), (5, none) and (none, none) respectively. -/
theorem C5_extract_years_examples :
    extract_years "3-5 years" = (some 3, some 5) ∧
    extract_years "up to 2 years" = (some 0, some 2) ∧
    extract_years "5+ years" = (some 5, none) ∧
    extract_years "no experience needed" = (none, none) :=
  ⟨by decide, by decide, by decide, by decide⟩

/-- C6: for every title free of senior-exclusion keywords and every
location rejected by `is_uk` (including the empty location), `bucket_job`
returns `("IGNORE", "Not UK location")`, for every description. -/
theorem C6_non_uk_ignored (title location description : String)
    (h1 : contains_any title SENIOR_EXCLUDE_KEYWORDS = false)
    (h2 : is_uk location = false) :
    bucket_job title location description = ("IGNORE", "Not UK location") := by
  simp [bucket_job, contains_any_pyLower, h1, h2]

theorem C6_witness :
    contains_any "Software Engineer" SENIOR_EXCLUDE_KEYWORDS = false ∧
    is_uk "" = false ∧ is_uk "Paris, France" = false ∧
    bucket_job "Software Engineer" "" "irrelevant" = ("IGNORE", "Not UK location") ∧
    bucket_job "Software Engineer" "Paris, France" "irrelevant" =
      ("IGNORE", "Not UK location") :=
  ⟨by decide, by decide, by decide,
   C6_non_uk_ignored "Software Engineer" "" "irrelevant" (by decide) (by decide),
   C6_non_uk_ignored "Software Engineer" "Paris, France" "irrelevant" (by decide) (by decide)⟩

/-- C7: for every title free of senior-exclusion keywords, every UK
location, and every description whose extracted minimum years is at
least 5, `bucket_job` returns `("EXCLUDE", "5+ years mentioned")`. -/
theorem C7_five_plus_years_excluded (title location description : String) (m : ℚ)
    (h1 : contains_any title SENIOR_EXCLUDE_KEYWORDS = false)
    (h2 : is_uk location = true)
    (h3 : (extract_years description).1 = some m)
    (h4 : 5 ≤ m) :
    bucket_job title location description = ("EXCLUDE", "5+ years mentioned") := by
  simp [bucket_job, contains_any_pyLower, h1, h2, h3, h4]

theorem C7_witness :
    contains_any "Software Engineer" SENIOR_EXCLUDE_KEYWORDS = false ∧
    is_uk "London" = true ∧
    (extract_years "7-10 years required").1 = some 7 ∧
    bucket_job "Software Engineer" "London" "7-10 years required" =
      ("EXCLUDE", "5+ years mentioned") ∧
    bucket_job "Software Engineer" "London" "5+ years" =
      ("EXCLUDE", "5+ years mentioned") :=
  ⟨by decide, by decide, by decide,
   C7_five_plus_years_excluded "Software Engineer" "London" "7-10 years required" 7
     (by decide) (by decide) (by decide) (by decide),
   C7_five_plus_years_excluded "Software Engineer" "London" "5+ years" 5
     (by decide) (by decide) (by decide) (by decide)⟩

theorem bucketByTitle_fst (t : String) :
    (bucketByTitle t).1 = "HIGH" ∨ (bucketByTitle t).1 = "LESS" := by
  unfold bucketByTitle
  split
  · simp
  · split <;> simp

theorem bucket_job_fst (t l d : String) :
    (bucket_job t l d).1 = "EXCLUDE" ∨ (bucket_job t l d).1 = "IGNORE" ∨
    (bucket_job t l d).1 = "HIGH" ∨ (bucket_job t l d).1 = "LESS" := by
  unfold bucket_job
  cases h1 : contains_any (pyLower t) SENIOR_EXCLUDE_KEYWORDS with
  | true => simp [h1]
  | false =>
    cases h2 : is_uk l with
    | false => simp [h1, h2]
    | true =>
      cases h3 : (extract_years d).1 with
      | none => rcases bucketByTitle_fst (pyLower t) with h | h <;> simp [h1, h2, h3, h]
      | some y =>
        by_cases h4 : (5 : ℚ) ≤ y
        · simp [h1, h2, h3, h4]
        · rcases bucketByTitle_fst (pyLower t) with h | h <;> simp [h1, h2, h3, h4, h]

theorem bucket_job_of_not_uk (t l d : String) (h : is_uk l = false) :
    (bucket_job t l d).1 = "EXCLUDE" ∨ (bucket_job t l d).1 = "IGNORE" := by
  unfold bucket_job
  cases h1 : contains_any (pyLower t) SENIOR_EXCLUDE_KEYWORDS with
  | true => simp [h1]
  | false => simp [h1, h]

theorem mem_keptRows {n : String} {jobs : List Job} {r : Row}
    (h : r ∈ keptRows n jobs) :
    ∃ j ∈ jobs,
      ¬((bucket_job j.title j.location j.description).1 = "EXCLUDE" ∨
        (bucket_job j.title j.location j.description).1 = "IGNORE") ∧
      r = { employer := n
            title := j.title
            location := j.location
            department := j.department
            employment_type := j.employment_type
            url := j.url
            bucket := (bucket_job j.title j.location j.description).1
            reason := (bucket_job j.title j.location j.description).2 } := by
  unfold keptRows at h
  obtain ⟨j, hj, hr⟩ := List.mem_filterMap.mp h
  simp only [] at hr
  by_cases hc : (bucket_job j.title j.location j.description).1 = "EXCLUDE" ∨
      (bucket_job j.title j.location j.description).1 = "IGNORE"
  · rw [if_pos hc] at hr
    exact absurd hr (by simp)
  · rw [if_neg hc] at hr
    exact ⟨j, hj, hc, (Option.some_inj.mp hr).symm⟩

theorem stepRun_fst (acc : List Row × List String) (e : Employer) :
    (stepRun acc e).1 = acc.1 ++ rowsOfEmp e := by
  by_cases h : supportedType e.etype = true
  · cases hf : e.fetch with
    | error msg => simp [stepRun, rowsOfEmp, h, hf]
    | ok jobs => simp [stepRun, rowsOfEmp, h, hf]
  · simp [stepRun, rowsOfEmp, h]

theorem foldl_stepRun_fst (es : List Employer) :
    ∀ acc : List Row × List String,
      (es.foldl stepRun acc).1 = acc.1 ++ es.flatMap rowsOfEmp := by
  induction es with
  | nil => intro acc; simp
  | cons e es ih =>
    intro acc
    simp only [List.foldl_cons, List.flatMap_cons]
    rw [ih, stepRun_fst, List.append_assoc]

theorem mainRows_eq (es : List Employer) : mainRows es = es.flatMap rowsOfEmp := by
  unfold mainRows mainRun
  rw [foldl_stepRun_fst]
  simp

theorem stepRun_snd (acc : List Row × List String) (e : Employer) :
    ∃ l, (stepRun acc e).2 = acc.2 ++ l := by
  by_cases h : supportedType e.etype = true
  · cases hf : e.fetch with
    | error msg => exact ⟨[e.name ++ ": ERROR: " ++ msg], by simp [stepRun, h, hf]⟩
    | ok jobs =>
      exact ⟨[e.name ++ ": kept " ++
        toString ((acc.1 ++ keptRows e.name jobs).filter
          (fun r => r.employer == e.name)).length ++ " jobs"], by simp [stepRun, h, hf]⟩
  · exact ⟨["Skipping " ++ e.name ++ ": unsupported type '" ++ e.etype ++ "'"],
      by simp [stepRun, h]⟩

theorem mem_foldl_stepRun_snd (x : String) (es : List Employer) :
    ∀ acc : List Row × List String, x ∈ acc.2 → x ∈ (es.foldl stepRun acc).2 := by
  induction es with
  | nil => intro acc h; simpa using h
  | cons e es ih =>
    intro acc h
    simp only [List.foldl_cons]
    apply ih
    obtain ⟨l, hl⟩ := stepRun_snd acc e
    rw [hl]
    exact List.mem_append_left _ h

/-- C2: for every run, every row in the collected output has bucket HIGH
or LESS; rows bucketed EXCLUDE or IGNORE are never appended. -/
theorem C2_output_buckets_high_or_less (es : List Employer) (r : Row)
    (h : r ∈ mainRows es) : r.bucket = "HIGH" ∨ r.bucket = "LESS" := by
  rw [mainRows_eq] at h
  obtain ⟨e, _, hr⟩ := List.mem_flatMap.mp h
  unfold rowsOfEmp at hr
  split at hr
  · split at hr
    · obtain ⟨j, _, hcond, rfl⟩ := mem_keptRows hr
      rcases bucket_job_fst j.title j.location j.description with h4 | h4 | h4 | h4
      · exact absurd (Or.inl h4) hcond
      · exact absurd (Or.inr h4) hcond
      · exact Or.inl h4
      · exact Or.inr h4
    · simp at hr
  · simp at hr

/-- C10: every row appended to the output has a location accepted by
`is_uk`, because any posting with a non-UK location is bucketed
EXCLUDE or IGNORE and dropped before collection. -/
theorem C10_output_locations_uk (es : List Employer) (r : Row)
    (h : r ∈ mainRows es) : is_uk r.location = true := by
  rw [mainRows_eq] at h
  obtain ⟨e, _, hr⟩ := List.mem_flatMap.mp h
  unfold rowsOfEmp at hr
  split at hr
  · split at hr
    · obtain ⟨j, _, hcond, rfl⟩ := mem_keptRows hr
      show is_uk j.location = true
      cases hk : is_uk j.location with
      | true => rfl
      | false => exact absurd (bucket_job_of_not_uk j.title j.location j.description hk) hcond
    · simp at hr
  · simp at hr

/-- Concrete posting used by the end-to-end witnesses. -/
def jobGrad : Job :=
  { title := "Graduate Analyst"
    location := "London, UK"
    department := ""
    employment_type := ""
    url := ""
    description := "" }

/-- A succeeding employer whose adapter returns one HIGH posting. -/
def empOK : Employer := { name := "Acme", etype := "pinpoint", fetch := .ok [jobGrad] }

/-- An employer whose adapter raises a transport error. -/
def empFail : Employer :=
  { name := "FailCo", etype := "greenhouse", fetch := .error "connection refused" }

/-- The output row produced from `jobGrad` for `empOK`. -/
def rowGrad : Row :=
  { employer := "Acme"
    title := "Graduate Analyst"
    location := "London, UK"
    department := ""
    employment_type := ""
    url := ""
    bucket := "HIGH"
    reason := "Strong junior keyword in title" }

theorem C2_witness : rowGrad.bucket = "HIGH" ∨ rowGrad.bucket = "LESS" :=
  C2_output_buckets_high_or_less [empOK] rowGrad (by decide)

theorem C10_witness : is_uk rowGrad.location = true :=
  C10_output_locations_uk [empOK] rowGrad (by decide)

/-- C3: an adapter exception for one employer contributes zero rows, is
logged with the employer name, and leaves the other employers' rows
intact (the run itself is a total function, so it completes). -/
theorem C3_employer_fault_isolation (pre post : List Employer) (e : Employer)
    (msg : String) (hsup : supportedType e.etype = true)
    (herr : e.fetch = .error msg) :
    rowsOfEmp e = [] ∧
    (e.name ++ ": ERROR: " ++ msg) ∈ mainLogs (pre ++ e :: post) ∧
    mainRows (pre ++ e :: post) = mainRows pre ++ mainRows post := by
  have hrows : rowsOfEmp e = [] := by simp [rowsOfEmp, hsup, herr]
  refine ⟨hrows, ?_, ?_⟩
  · unfold mainLogs mainRun
    rw [List.foldl_append, List.foldl_cons]
    apply mem_foldl_stepRun_snd
    simp [stepRun, hsup, herr]
  · rw [mainRows_eq, mainRows_eq, mainRows_eq, List.flatMap_append, List.flatMap_cons,
      hrows]
    simp

theorem C3_witness :
    rowsOfEmp empFail = [] ∧
    ("FailCo: ERROR: connection refused") ∈ mainLogs ([] ++ empFail :: [empOK]) ∧
    mainRows ([] ++ empFail :: [empOK]) = mainRows [] ++ mainRows [empOK] :=
  C3_employer_fault_isolation [] [empOK] empFail "connection refused" (by decide) rfl

theorem workdayLoop_total (fetch : Nat → WPayload) (host : String) :
    ∀ fuel offset, 1 ≤ fuel → 500 < offset + 20 * fuel →
      (workdayLoop fetch host fuel offset).isSome = true := by
  intro fuel
  induction fuel with
  | zero => intro offset h1 _; exact absurd h1 (by omega)
  | succ f ih =>
    intro offset _ hb
    simp only [workdayLoop]
    split
    next => simp
    next =>
      split
      next => simp
      next =>
        split
        next => simp
        next h5 =>
          have hf : 1 ≤ f := by omega
          have hrec := ih (offset + 20) hf (by omega)
          obtain ⟨⟨js, c⟩, hv⟩ := Option.isSome_iff_exists.mp hrec
          rw [hv]
          simp

/-- C4: the Workday pagination loop always terminates within the fuel
bound forced by the 500 safety ceiling (27 iterations from offset 0
suffice for any server behaviour), and a call whose first page holds 20
items with reported total 20 stops after exactly one request, returning
just that page's normalized jobs. -/
theorem C4_workday_pagination (fetch : Nat → WPayload) (host : String) :
    (workdayLoop fetch host 27 0).isSome = true ∧
    ((itemsOf (fetch 0)).length = 20 → totalOf (fetch 0) = some 20 →
      workdayLoop fetch host 27 0 = some ((itemsOf (fetch 0)).map (normWItem host), 1)) := by
  constructor
  · exact workdayLoop_total fetch host 27 0 (by omega) (by omega)
  · intro hlen htot
    have hne : (itemsOf (fetch 0)).isEmpty = false := by
      cases hitems : itemsOf (fetch 0) with
      | nil => rw [hitems] at hlen; simp at hlen
      | cons a l => simp
    have h27 : (27 : Nat) = 26 + 1 := rfl
    rw [h27]
    simp only [workdayLoop]
    rw [hne, htot]
    simp [totalReached]

/-- A Workday item with every optional field absent. -/
def witem0 : WItem :=
  { title := none
    jobPostingTitle := none
    externalPath := none
    externalUrl := none
    locationsText := none
    location := none
    primaryLocation := none }

/-- A Workday page of 20 items reporting `total = 20`. -/
def payload20 : WPayload :=
  { jobPostings := some (List.replicate 20 witem0)
    items := none
    total := some 20
    totalCount := none }

theorem C4_witness :
    workdayLoop (fun _ => payload20) "example.wd3.myworkdayjobs.com" 27 0 =
      some ((itemsOf payload20).map (normWItem "example.wd3.myworkdayjobs.com"), 1) :=
  (C4_workday_pagination (fun _ => payload20) "example.wd3.myworkdayjobs.com").2
    (by decide) (by decide)

/-- C8: the Greenhouse adapter handles a flat `jobs` key (department
tagged `""`), a `departments` key (each job tagged with its department's
name, so no `""` tag unless a department's name is itself empty), and
both keys at once (the concatenation of the two readings). -/
theorem C8_greenhouse_shapes (p : GPayload) :
    (∀ js, p.jobs = some js → p.departments = none →
      scrape_greenhouse p = js.map (ghNorm "") ∧
        ∀ r ∈ scrape_greenhouse p, r.department = "") ∧
    (∀ ds, p.jobs = none → p.departments = some ds →
      scrape_greenhouse p = ds.flatMap (fun d => d.jobs.map (ghNorm (d.name.getD ""))) ∧
        ∀ r ∈ scrape_greenhouse p, r.department = "" → ∃ d ∈ ds, d.name.getD "" = "") ∧
    (∀ js ds, p.jobs = some js → p.departments = some ds →
      scrape_greenhouse p = js.map (ghNorm "") ++
        ds.flatMap (fun d => d.jobs.map (ghNorm (d.name.getD "")))) := by
  refine ⟨?_, ?_, ?_⟩
  · intro js hjs hds
    have he : scrape_greenhouse p = js.map (ghNorm "") := by
      simp [scrape_greenhouse, hjs, hds]
    refine ⟨he, ?_⟩
    intro r hr
    rw [he] at hr
    obtain ⟨j, _, rfl⟩ := List.mem_map.mp hr
    rfl
  · intro ds hjs hds
    have he : scrape_greenhouse p =
        ds.flatMap (fun d => d.jobs.map (ghNorm (d.name.getD ""))) := by
      simp [scrape_greenhouse, hjs, hds]
    refine ⟨he, ?_⟩
    intro r hr hdep
    rw [he] at hr
    obtain ⟨d, hd, hrd⟩ := List.mem_flatMap.mp hr
    obtain ⟨j, _, rfl⟩ := List.mem_map.mp hrd
    exact ⟨d, hd, hdep⟩
  · intro js ds hjs hds
    simp [scrape_greenhouse, hjs, hds]

/-- A Greenhouse job entry with only a title. -/
def gjob (t : String) : GJob :=
  { title := some t, location := GLoc.missing, absolute_url := none, content := none }

/-- A Greenhouse payload carrying both a flat `jobs` key and a
`departments` key. -/
def gpayloadBoth : GPayload :=
  { jobs := some [gjob "Flat Role"]
    departments := some [{ name := some "Engineering", jobs := [gjob "Dept Role"] }] }

theorem C8_witness :
    scrape_greenhouse gpayloadBoth =
      [gjob "Flat Role"].map (ghNorm "") ++
        [({ name := some "Engineering", jobs := [gjob "Dept Role"] } : GDept)].flatMap
          (fun d => d.jobs.map (ghNorm (d.name.getD ""))) :=
  (C8_greenhouse_shapes gpayloadBoth).2.2
    [gjob "Flat Role"] [{ name := some "Engineering", jobs := [gjob "Dept Role"] }] rfl rfl

/-- C9: the written output is the fixed eight-column header plus the
collected rows sorted by (bucket, employer, title) ascending (a
permutation of the collected rows); when no rows survived the body is
empty and the header alone is still written. -/
theorem C9_output_sorted_with_header (es : List Employer) :
    List.Sorted rowLe (writeOutput es).2 ∧
    List.Perm (writeOutput es).2 (mainRows es) ∧
    (writeOutput es).1 = ["employer", "title", "location", "department",
      "employment_type", "url", "bucket", "reason"] ∧
    (∀ a b : Row, rowLe a b ↔
      (a.bucket < b.bucket ∨ (a.bucket = b.bucket ∧
        (a.employer < b.employer ∨ (a.employer = b.employer ∧ a.title ≤ b.title))))) ∧
    (mainRows es = [] → (writeOutput es).2 = []) := by
  refine ⟨List.sorted_insertionSort rowLe _, List.perm_insertionSort rowLe _, rfl, ?_, ?_⟩
  · intro a b
    unfold rowLe
    rw [Prod.Lex.le_iff, Prod.Lex.le_iff]
  · intro h
    show List.insertionSort rowLe (mainRows es) = []
    rw [h]
    rfl

theorem C9_witness :
    (writeOutput []).2 = [] ∧
    (writeOutput []).1 = ["employer", "title", "location", "department",
      "employment_type", "url", "bucket", "reason"] :=
  ⟨(C9_output_sorted_with_header []).2.2.2.2 rfl,
   (C9_output_sorted_with_header []).2.2.1⟩

end Scrape
